import Mathlib

/-!
Shallow embedding of the move-review engine of the chess-review repository
(`src/lib/chess-analysis.ts`, `src/lib/opening-book.ts`,
`src/hooks/useChessGame.ts`).

The chess rules adapter (the `chess.js` library) is external to the
repository; positions, verbose legal-move lists and the `get` accessor are
therefore modelled as data supplied to the embedded functions, exactly the
data the source reads from the adapter.  Centipawn evaluations are JS
numbers carrying integer centipawn values; they are modelled as integers,
and the accuracy average is computed in ℚ so that the division is exact.
-/

namespace ChessReview

/-- Piece types as used by chess.js (`p`, `n`, `b`, `r`, `q`, `k`). -/
inductive PType where
  | p | n | b | r | q | k
deriving DecidableEq, Repr

/-- A piece on the board: type plus colour (`true` = white), the shape of
`chess.get(square)` results and `chess.board()` cells. -/
structure SqPiece where
  ptype : PType
  colorWhite : Bool
deriving DecidableEq, Repr

/-- The fields of a chess.js verbose move that `maxMaterialLossAfterMove`
reads: the destination square and the optional captured-piece type. -/
structure VMove where
  toSq : String
  captured : Option PType
deriving DecidableEq, Repr

/-- The view of a chess.js `Chess` instance that the analysis code uses:
`board()` (ranks of optional pieces), `get(square)`, `moves({verbose:true})`
for the side to move, and whose turn it is (`true` = white). -/
structure BoardPos where
  board : List (List (Option SqPiece))
  getAt : String → Option SqPiece
  moves : List VMove
  turnWhite : Bool

/-- `PIECE_VALUES` from `chess-analysis.ts`: pawn 1, knight 3, bishop 3,
rook 5, queen 9, king 0. -/
def PIECE_VALUES : PType → Int
  | .p => 1
  | .n => 3
  | .b => 3
  | .r => 5
  | .q => 9
  | .k => 0

/-- `materialBalance(chess, forWhite)`: sum piece values per colour over
`chess.board()` and return the difference signed for the given side. -/
def materialBalance (chess : BoardPos) (forWhite : Bool) : Int :=
  let acc := chess.board.foldl
    (fun wb row => row.foldl
      (fun (wb : Int × Int) sq =>
        match sq with
        | none => wb
        | some pc =>
          let v := PIECE_VALUES pc.ptype
          if pc.colorWhite then (wb.1 + v, wb.2) else (wb.1, wb.2 + v))
      wb)
    (0, 0)
  if forWhite then acc.1 - acc.2 else acc.2 - acc.1

/-- `maxMaterialLossAfterMove(chess, forWhite)` from `chess-analysis.ts`:
scan the verbose moves of the side to move; for each capture, look at the
piece sitting on the destination square, skip it when it is missing or when
its colour equals the mover's colour (`captured.color === ourColor`), and
otherwise take the maximum of the captured-piece values. -/
def maxMaterialLossAfterMove (chess : BoardPos) (forWhite : Bool) : Int :=
  let ourColorWhite := forWhite
  chess.moves.foldl
    (fun (maxLoss : Int) m =>
      match m.captured with
      | none => maxLoss
      | some capType =>
        match chess.getAt m.toSq with
        | none => maxLoss
        | some occupant =>
          if occupant.colorWhite = ourColorWhite then maxLoss
          else max maxLoss (PIECE_VALUES capType))
    0

/-- Modelled from the spec: `maxRecapturableLoss`, "the maximum piece value
the opponent can take back from the mover via any capturing reply available
in the post-move position" — the maximum of `PIECE_VALUES` over the captured
piece of every capturing reply. -/
def specMaxRecapturableLoss (chess : BoardPos) : Int :=
  chess.moves.foldl
    (fun (maxLoss : Int) m =>
      match m.captured with
      | none => maxLoss
      | some capType => max maxLoss (PIECE_VALUES capType))
    0

/-- Rules-adapter well-formedness of a post-move position, for the side that
just moved (`moverWhite`): it is the opponent's turn, and every capturing
reply either targets a square occupied by one of the mover's pieces or (en
passant) an empty square.  Every position chess.js produces after a legal
move satisfies this. -/
def PostMoveWF (chess : BoardPos) (moverWhite : Bool) : Prop :=
  chess.turnWhite = !moverWhite ∧
  ∀ m ∈ chess.moves, m.captured ≠ none →
    chess.getAt m.toSq = none ∨
    ∃ pc, chess.getAt m.toSq = some pc ∧ pc.colorWhite = moverWhite

/-- Board ranks (8 down to 1) of the position after 1.e4 e5 2.Nf3 Nc6
3.Nxe5: White's knight has just captured the e5 pawn and stands on e5;
Black to move can recapture it with the c6 knight. -/
def exBoardAfterNxe5 : List (List (Option SqPiece)) :=
  [ [some ⟨.r, false⟩, none, some ⟨.b, false⟩, some ⟨.q, false⟩,
     some ⟨.k, false⟩, some ⟨.b, false⟩, some ⟨.n, false⟩, some ⟨.r, false⟩],
    [some ⟨.p, false⟩, some ⟨.p, false⟩, some ⟨.p, false⟩, some ⟨.p, false⟩,
     none, some ⟨.p, false⟩, some ⟨.p, false⟩, some ⟨.p, false⟩],
    [none, none, some ⟨.n, false⟩, none, none, none, none, none],
    [none, none, none, none, some ⟨.n, true⟩, none, none, none],
    [none, none, none, none, some ⟨.p, true⟩, none, none, none],
    [none, none, none, none, none, none, none, none],
    [some ⟨.p, true⟩, some ⟨.p, true⟩, some ⟨.p, true⟩, some ⟨.p, true⟩,
     none, some ⟨.p, true⟩, some ⟨.p, true⟩, some ⟨.p, true⟩],
    [some ⟨.r, true⟩, some ⟨.n, true⟩, some ⟨.b, true⟩, some ⟨.q, true⟩,
     some ⟨.k, true⟩, some ⟨.b, true⟩, none, some ⟨.r, true⟩] ]

/-- The post-move position after 3.Nxe5 as the analysis code sees it: Black
to move; Black's only capturing reply is Nc6xe5 taking the White knight on
e5 (a few representative quiet replies are listed as well — they are skipped
by both loss computations, which look only at captures). -/
def exPosAfterNxe5 : BoardPos :=
  { board := exBoardAfterNxe5
    getAt := fun s => if s = "e5" then some ⟨.n, true⟩ else none
    moves := [⟨"e5", some .n⟩, ⟨"d6", none⟩, ⟨"f6", none⟩, ⟨"e7", none⟩]
    turnWhite := false }

/-- The pre-move position (after 2...Nc6, White to move).  Only its
`board()` is consulted by the analysis (for `materialBalance`), so the
accessor and move list are left empty. -/
def exPosBeforeNxe5 : BoardPos :=
  { board :=
      [ [some ⟨.r, false⟩, none, some ⟨.b, false⟩, some ⟨.q, false⟩,
         some ⟨.k, false⟩, some ⟨.b, false⟩, some ⟨.n, false⟩, some ⟨.r, false⟩],
        [some ⟨.p, false⟩, some ⟨.p, false⟩, some ⟨.p, false⟩, some ⟨.p, false⟩,
         none, some ⟨.p, false⟩, some ⟨.p, false⟩, some ⟨.p, false⟩],
        [none, none, some ⟨.n, false⟩, none, none, none, none, none],
        [none, none, none, none, some ⟨.p, false⟩, none, none, none],
        [none, none, none, none, some ⟨.p, true⟩, none, none, none],
        [none, none, none, none, none, some ⟨.n, true⟩, none, none],
        [some ⟨.p, true⟩, some ⟨.p, true⟩, some ⟨.p, true⟩, some ⟨.p, true⟩,
         none, some ⟨.p, true⟩, some ⟨.p, true⟩, some ⟨.p, true⟩],
        [some ⟨.r, true⟩, some ⟨.n, true⟩, some ⟨.b, true⟩, some ⟨.q, true⟩,
         some ⟨.k, true⟩, some ⟨.b, true⟩, none, some ⟨.r, true⟩] ]
    getAt := fun _ => none
    moves := []
    turnWhite := true }

/-! ### Opening book (`opening-book.ts`)

JS string primitives (`split`, `trim`) are modelled by character-level
structural recursions so that every definition evaluates inside the kernel;
`\s` is modelled by `Char.isWhitespace` (the book data is ASCII). -/

/-- `String.prototype.split(sep)` for a single-character separator. -/
def splitOnCharGo (sep : Char) : List Char → List Char → List (List Char)
  | acc, [] => [acc.reverse]
  | acc, c :: r =>
    if c = sep then acc.reverse :: splitOnCharGo sep [] r
    else splitOnCharGo sep (c :: acc) r

/-- Split a string at every occurrence of `sep` (empty pieces kept). -/
def splitOnChar (sep : Char) (s : String) : List String :=
  (splitOnCharGo sep [] s.data).map (fun l => String.mk l)

/-- `String.prototype.trim()`. -/
def trimWs (s : String) : String :=
  String.mk
    (((s.data.dropWhile (·.isWhitespace)).reverse.dropWhile
      (·.isWhitespace)).reverse)

/-- `normalizeFen` from `opening-book.ts`: keep only the first four
space-separated FEN fields (piece placement, active colour, castling,
en passant), dropping the clock fields. -/
def normalizeFen (fen : String) : String :=
  String.intercalate " " ((splitOnChar ' ' fen).take 4)

/-- `isBookPosition(fen, book)`: membership of the normalized FEN in the
book set (the set is modelled by its list of keys). -/
def isBookPosition (fen : String) (book : List String) : Bool :=
  book.contains (normalizeFen fen)

/-- States of the left-to-right scan implementing the global replacement
`replace(/\d+\.\s*/g, '')`: scanning normally, holding a pending digit run
(stored reversed) that may yet be followed by a dot, or skipping the
whitespace after a matched `digits.`. -/
inductive StripState where
  | norm
  | digits (pending : List Char)
  | ws

/-- One pass of `replace(/\d+\.\s*/g, '')`: a maximal digit run followed by
a dot is removed together with the whitespace after it; a digit run not
followed by a dot is kept verbatim. -/
def stripGo : StripState → List Char → List Char
  | .norm, [] => []
  | .norm, c :: r =>
    if c.isDigit then stripGo (.digits [c]) r else c :: stripGo .norm r
  | .digits pending, [] => pending.reverse
  | .digits pending, c :: r =>
    if c.isDigit then stripGo (.digits (c :: pending)) r
    else if c = '.' then stripGo .ws r
    else pending.reverse ++ c :: stripGo .norm r
  | .ws, [] => []
  | .ws, c :: r =>
    if c.isWhitespace then stripGo .ws r
    else if c.isDigit then stripGo (.digits [c]) r
    else c :: stripGo .norm r

/-- `pgnSequence.replace(/\d+\.\s*/g, '')`. -/
def stripMoveNumbers (s : String) : String :=
  String.mk (stripGo .norm s.data)

/-- `split(/\s+/)` followed by `filter(Boolean)`: the maximal runs of
non-whitespace characters. -/
def wsTokensGo (cur : List Char) : List Char → List String
  | [] => if cur.isEmpty then [] else [String.mk cur.reverse]
  | c :: r =>
    if c.isWhitespace then
      if cur.isEmpty then wsTokensGo [] r
      else String.mk cur.reverse :: wsTokensGo [] r
    else wsTokensGo (c :: cur) r

/-- The whitespace-separated tokens of a move-sequence field. -/
def wsTokens (s : String) : List String :=
  wsTokensGo [] s.data

/-- `token === '*' || token.match(/^(1-0|0-1|1\/2)$/)`: the anchored regex
matches exactly the strings `1-0`, `0-1` and `1/2`. -/
def isResultToken (t : String) : Bool :=
  t = "*" || t = "1-0" || t = "0-1" || t = "1/2"

/-- The rules-adapter operations `loadBook` uses from chess.js: a fresh game
(`new Chess()`), the current FEN, and `move(token)`, which returns the new
state or fails (throws) on an unparsable or illegal token. -/
structure Rules (σ : Type) where
  init : σ
  fen : σ → String
  move : σ → String → Option σ

/-- The token-replay loop of `loadBook`: stop at a result token, stop at the
first failing move, and record the normalized FEN after every successful
move. -/
def replayTokens {σ : Type} (ru : Rules σ) : σ → List String → List String
  | _, [] => []
  | st, t :: rest =>
    if isResultToken t then []
    else
      match ru.move st t with
      | none => []
      | some st' => normalizeFen (ru.fen st') :: replayTokens ru st' rest

/-- Processing of one TSV line inside `loadBook`: skip lines with fewer than
three tab-separated fields or with an empty move-sequence field; otherwise
record the normalized start position and every position reached while
replaying the tokens. -/
def parseLine {σ : Type} (ru : Rules σ) (line : String) : List String :=
  let parts := splitOnChar '\t' line
  if parts.length < 3 then []
  else
    let pgnSequence := trimWs (parts.getD 2 "")
    if pgnSequence = "" then []
    else
      normalizeFen (ru.fen ru.init) ::
        replayTokens ru ru.init (wsTokens (stripMoveNumbers pgnSequence))

/-- The positions one partition's text contributes: split into lines, skip
the header line, process every remaining line. -/
def partitionPositions {σ : Type} (ru : Rules σ) (text : String) :
    List String :=
  ((splitOnChar '\n' text).drop 1).flatMap (parseLine ru)

/-- The five opening-book source partitions. -/
def bookFiles : List String := ["a", "b", "c", "d", "e"]

/-- `loadBook`: fetch all five partition files under `Promise.all`
semantics — a single rejected fetch rejects the whole load — and on success
collect every partition's positions into the shared set (modelled by the
concatenated key list; only membership in it is ever consulted). -/
def loadBook {σ ε : Type} (ru : Rules σ)
    (fetchText : String → Except ε String) : Except ε (List String) := do
  let texts ← bookFiles.mapM fetchText
  pure (texts.flatMap (partitionPositions ru))

/-- The move classification labels of `chess-analysis.ts`. -/
inductive MoveClassification where
  | Brilliant | Great | Best | Excellent | Good
  | Inaccuracy | Mistake | Miss | Blunder | Book
deriving DecidableEq, Repr

/-- `classifyMove(cpLoss, isSacrifice, isPunishment)`: the ordered threshold
table of `chess-analysis.ts` (sacrifice first, then punishment, then pure
centipawn-loss thresholds). -/
def classifyMove (cpLoss : Int) (isSacrifice : Bool) (isPunishment : Bool) :
    MoveClassification :=
  if isSacrifice && decide (cpLoss ≤ 15) then .Brilliant
  else if isSacrifice && decide (cpLoss ≤ 30) then .Great
  else if isPunishment && decide (cpLoss ≤ 15) then .Great
  else if cpLoss = 0 then .Best
  else if cpLoss ≤ 15 then .Excellent
  else if cpLoss ≤ 30 then .Good
  else if cpLoss ≤ 60 then .Inaccuracy
  else if cpLoss ≤ 120 then .Mistake
  else if cpLoss ≤ 250 then .Miss
  else .Blunder

/-- Modelled from the spec, claim C5's ordered table: "sacrifice and
cpLoss<=15 gives Brilliant; sacrifice and cpLoss<=30 gives Great; punishment
and cpLoss<=15 gives Great; cpLoss==0 Best; <=15 Excellent; <=30 Good; <=60
Inaccuracy; <=120 Mistake; <=250 Miss; otherwise Blunder", with
sacrifice/punishment overrides taking priority in that order. -/
def specClassifyTable (cpLoss : Int) (isSacrifice : Bool) (isPunishment : Bool) :
    MoveClassification :=
  if isSacrifice && decide (cpLoss ≤ 15) then .Brilliant
  else if isSacrifice && decide (cpLoss ≤ 30) then .Great
  else if isPunishment && decide (cpLoss ≤ 15) then .Great
  else if cpLoss = 0 then .Best
  else if cpLoss ≤ 15 then .Excellent
  else if cpLoss ≤ 30 then .Good
  else if cpLoss ≤ 60 then .Inaccuracy
  else if cpLoss ≤ 120 then .Mistake
  else if cpLoss ≤ 250 then .Miss
  else .Blunder

/-- `EvalResult` from `api.ts`: the evaluator's centipawn score and optional
best move for one position. -/
structure EvalResult where
  evaluation : Int
  bestMove : Option String
deriving DecidableEq, Repr

instance : Inhabited EvalResult := ⟨⟨0, none⟩⟩

instance : Inhabited BoardPos := ⟨⟨[], fun _ => none, [], true⟩⟩

/-- One played ply as `analyzeGame` consumes it: the verbose history entry
(`san`, `from`, `to`, `promotion`, `color`), the FENs before/after the move
(`fens[i]`, `fens[i+1]`), and the rules-adapter reconstructions
`new Chess(fenBefore)` / `new Chess(fenAfter)` used by the sacrifice test. -/
structure Ply where
  san : String
  fromSq : String
  toSq : String
  promo : Option String
  isWhite : Bool
  fenBefore : String
  fenAfter : String
  boardBefore : BoardPos
  boardAfter : BoardPos

instance : Inhabited Ply :=
  ⟨⟨"", "", "", none, true, "", "", default, default⟩⟩

/-- `MoveReview` from `chess-analysis.ts`. -/
structure MoveReview where
  san : String
  uci : String
  fen : String
  fenBefore : String
  cpLoss : Int
  evaluation : Int
  classification : MoveClassification
  bestMoveUci : Option String
  clock : Option String
  isWhite : Bool
  moveNumber : Nat
deriving DecidableEq, Repr

/-- `AnalysisResponse` (accuracy and the reviews; the header-string fields
extracted from the PGN text are presentation plumbing outside the claims). -/
structure AnalysisResponse where
  accuracy : ℚ
  moves : List MoveReview

/-- The raw centipawn loss of ply `i`:
`max(0, isWhite ? evalBefore - evalAfter : evalAfter - evalBefore)` with
`evalBefore = evaluations[i]`, `evalAfter = evaluations[i+1]`, exactly as
computed both for the current ply and (at `i-1`) inside the punishment
test. -/
def rawLoss (evaluations : List Int) (plies : List Ply) (i : Nat) : Int :=
  if (plies.getD i default).isWhite then
    max 0 (evaluations.getD i 0 - evaluations.getD (i + 1) 0)
  else
    max 0 (evaluations.getD (i + 1) 0 - evaluations.getD i 0)

/-- The sacrifice test of `analyzeGame`:
`(b2 - maxLoss - b1) <= -2` with `b1`/`b2` the mover's material balance
before/after and `maxLoss = maxMaterialLossAfterMove(boardAfter, isWhite)`. -/
def isSacrificeAt (p : Ply) : Bool :=
  let b1 := materialBalance p.boardBefore p.isWhite
  let b2 := materialBalance p.boardAfter p.isWhite
  let maxLoss := maxMaterialLossAfterMove p.boardAfter p.isWhite
  decide (b2 - maxLoss - b1 ≤ -2)

/-- The punishment test of `analyzeGame`: for `i > 0`, the previous ply's
loss recomputed from the raw evaluation trace is `>= 120` and the current
raw loss is `<= 15`. -/
def isPunishmentAt (evaluations : List Int) (plies : List Ply) (i : Nat) : Bool :=
  decide (0 < i) &&
    (decide (120 ≤ rawLoss evaluations plies (i - 1)) &&
     decide (rawLoss evaluations plies i ≤ 15))

/-- The classes for which `analyzeGame` attaches a best move. -/
def needsBestMoveClasses : List MoveClassification :=
  [.Inaccuracy, .Mistake, .Miss, .Blunder, .Excellent, .Good]

/-- The body of `analyzeGame`'s loop for index `i` with book state `inBook`:
produces the `MoveReview` pushed for that ply. -/
def mkReview (book : List String) (evalResults : List EvalResult)
    (clocks : List String) (plies : List Ply) (i : Nat) (inBook : Bool) :
    MoveReview :=
  let evaluations := evalResults.map (·.evaluation)
  let p := plies.getD i default
  let evalAfter := evaluations.getD (i + 1) 0
  let cpLossRaw := rawLoss evaluations plies i
  let isSacrifice := isSacrificeAt p
  let isPunishment := isPunishmentAt evaluations plies i
  let isBook := inBook && isBookPosition p.fenAfter book
  let cpLoss : Int := if isBook then 0 else cpLossRaw
  let classification :=
    if isBook then MoveClassification.Book
    else classifyMove cpLossRaw isSacrifice isPunishment
  let needsBestMove := classification ∈ needsBestMoveClasses
  let bestMoveUci :=
    if needsBestMove then (evalResults.getD i default).bestMove else none
  { san := p.san
    uci := p.fromSq ++ p.toSq ++ p.promo.getD ""
    fen := p.fenAfter
    fenBefore := p.fenBefore
    cpLoss := cpLoss
    evaluation := evalAfter
    classification := classification
    bestMoveUci := bestMoveUci
    clock := clocks.get? i
    isWhite := p.isWhite
    moveNumber := i / 2 + 1 }

/-- The sequential classification pass: one `MoveReview` per remaining ply,
threading `inBook` (it stays true only while every resulting position so far
was found in the book). -/
def goReviews (book : List String) (evalResults : List EvalResult)
    (clocks : List String) (plies : List Ply) :
    Nat → Bool → List Ply → List MoveReview
  | _, _, [] => []
  | i, inBook, _ :: rest =>
    mkReview book evalResults clocks plies i inBook ::
      goReviews book evalResults clocks plies (i + 1)
        (inBook && isBookPosition (plies.getD i default).fenAfter book) rest

/-- `analyzeGame`, after the external steps (PGN replay, parallel
evaluation, book load) have produced their data: classify every ply, then
`accuracy = max(0, 100 - avgCpLoss / 10)` with
`avgCpLoss = length ? totalCpLoss / length : 0`. -/
def analyzeGame (book : List String) (evalResults : List EvalResult)
    (clocks : List String) (plies : List Ply) : AnalysisResponse :=
  let reviews := goReviews book evalResults clocks plies 0 true plies
  let totalCpLoss : Int := (reviews.map (·.cpLoss)).sum
  let avgCpLoss : ℚ :=
    if reviews.length = 0 then 0 else (totalCpLoss : ℚ) / (reviews.length : ℚ)
  { accuracy := max 0 (100 - avgCpLoss / 10)
    moves := reviews }

/-- `inBook` after processing `j` plies starting at index `i`: all their
resulting positions were in the book. -/
def bookThrough (book : List String) (plies : List Ply) : Nat → Nat → Bool
  | _, 0 => true
  | i, j + 1 =>
    isBookPosition (plies.getD i default).fenAfter book && bookThrough book plies (i + 1) j

/-- The step of the review pipeline that consumes the opening book:
`analyzeGame` does `const book = await getOpeningBook()` with no
`try`/`catch`, so a failed book load propagates out of the review, while a
successful one feeds the loaded set into the classification pass. -/
def reviewGame {ε : Type} (bookLoad : Except ε (List String))
    (evalResults : List EvalResult) (clocks : List String)
    (plies : List Ply) : Except ε AnalysisResponse := do
  let book ← bookLoad
  pure (analyzeGame book evalResults clocks plies)

/-! ### Review navigation / exploration line (`useChessGame.ts`) -/

/-- `VariationNode`: one node of the exploration line (`eval` is `null`
until the node's asynchronous evaluation arrives). -/
structure VariationNode where
  san : String
  fen : String
  eval : Option Int
deriving DecidableEq, Repr

instance : Inhabited VariationNode := ⟨⟨"", "", none⟩⟩

/-- The state held by the `useChessGame` hook: main-line ply pointer, board
orientation and clock-display toggles, and the exploration-line state
(`isVariation`, node list, cursor, base index).  `variationIndex` is an
integer because its initial value is `-1`. -/
structure GameState where
  currentMoveIndex : Nat
  orientationWhite : Bool
  showTimestamps : Bool
  isVariation : Bool
  variationMoves : List VariationNode
  variationIndex : Int
  variationBaseIndex : Nat
deriving DecidableEq, Repr

/-- `extendVariation(san, fen)`: replace the node list by
`prev.slice(0, variationIndex + 1)` with the new node appended, and advance
the cursor.  Every reachable cursor value is ≥ -1, so the slice end is
non-negative and `slice` is plain `take`. -/
def extendVariation (s : GameState) (san fen : String) : GameState :=
  { s with
    variationMoves :=
      s.variationMoves.take (s.variationIndex + 1).toNat ++
        [⟨san, fen, none⟩]
    variationIndex := s.variationIndex + 1 }

/-- `updateVariationEval(idx, evalVal)`: copy the node list and, when a node
exists at `idx` (JS: `copy[idx]` is defined, i.e. `0 ≤ idx < length`),
replace that node by a copy whose `eval` field is the new value. -/
def updateVariationEval (s : GameState) (idx : Int) (evalVal : Int) :
    GameState :=
  { s with
    variationMoves :=
      if 0 ≤ idx ∧ idx < s.variationMoves.length then
        s.variationMoves.set idx.toNat
          { s.variationMoves.getD idx.toNat default with eval := some evalVal }
      else s.variationMoves }

/-! ### Concrete instances used to exercise the definitions -/

instance : Inhabited MoveReview :=
  ⟨⟨"", "", "", "", 0, 0, .Book, none, none, true, 0⟩⟩

/-- The ply 3.Nxe5 of the C1 scenario, with its rules-adapter boards. -/
def exPlyNxe5 : Ply :=
  { san := "Nxe5", fromSq := "f3", toSq := "e5", promo := none
    isWhite := true, fenBefore := "fenBeforeNxe5", fenAfter := "fenAfterNxe5"
    boardBefore := exPosBeforeNxe5, boardAfter := exPosAfterNxe5 }

/-- A two-ply game: White plays into a book position with a raw evaluation
swing of 150 centipawns, then Black leaves book with a raw loss of 0. -/
def exPly0 : Ply :=
  { san := "e4", fromSq := "e2", toSq := "e4", promo := none
    isWhite := true, fenBefore := "startfen", fenAfter := "bookfen1"
    boardBefore := default, boardAfter := default }

/-- Second ply of the two-ply game; its resulting position is off book. -/
def exPly1 : Ply :=
  { san := "Nf6", fromSq := "g8", toSq := "f6", promo := none
    isWhite := false, fenBefore := "bookfen1", fenAfter := "offbookfen"
    boardBefore := default, boardAfter := default }

/-- The two plies of the example game. -/
def exPlies : List Ply := [exPly0, exPly1]

/-- The book set containing exactly the first resulting position. -/
def exBook : List String := ["bookfen1"]

/-- Evaluator output for the three positions of the example game: trace
[150, 0, -10], with no best move returned for the final position. -/
def exEvalResults : List EvalResult :=
  [⟨150, some "d2d4"⟩, ⟨0, some "g8f6"⟩, ⟨-10, none⟩]

/-- The reviewed example game. -/
def exAnalysis : AnalysisResponse :=
  analyzeGame exBook exEvalResults [] exPlies

/-- A one-ply game whose only move loses 50 centipawns (an Inaccuracy)
while the evaluator returned no best move for the pre-move position. -/
def exPlyC4 : Ply :=
  { san := "a4", fromSq := "a2", toSq := "a4", promo := none
    isWhite := true, fenBefore := "startfen", fenAfter := "posA"
    boardBefore := default, boardAfter := default }

/-- Evaluator output for the one-ply game: trace [50, 0], best move absent
for the pre-move position. -/
def exEvalResultsC4 : List EvalResult := [⟨50, none⟩, ⟨0, some "e2e4"⟩]

/-- The reviewed one-ply game (empty book). -/
def exAnalysisC4 : AnalysisResponse :=
  analyzeGame [] exEvalResultsC4 [] [exPlyC4]

/-- A toy rules adapter for exercising the book loader: the state counts the
moves played so far and only the token `e4` is accepted. -/
def exRules : Rules Nat :=
  { init := 0
    fen := fun m => String.mk (List.replicate m 'm')
    move := fun m t => if t = "e4" then some (m + 1) else none }

/-- A partition text whose single data line has three tab-separated fields
and the move sequence `1. e4`; replaying it contributes two positions. -/
def exGoodText : String := "h\x09dr\x09seq\nQGD\x09D30\x091. e4 \n"

/-- Partition fetches that all succeed; only partition `a` has data. -/
def fetchAllOk : String → Except String String :=
  fun f => if f = "a" then .ok exGoodText else .ok "h"

/-- Partition fetches where `b` fails with a network error and every other
partition (including `a`, which has data) succeeds. -/
def fetchBFails : String → Except String String :=
  fun f => if f = "b" then .error "network" else fetchAllOk f

/-- An exploration state: three explored nodes with the cursor on the middle
one (index 1), branched off main-line ply 5. -/
def exGameState : GameState :=
  { currentMoveIndex := 5, orientationWhite := true, showTimestamps := false
    isVariation := true
    variationMoves :=
      [⟨"Nf3", "fenA", none⟩, ⟨"Nc6", "fenB", none⟩, ⟨"Bb5", "fenC", none⟩]
    variationIndex := 1, variationBaseIndex := 5 }

/-- On any well-formed post-move position the colour filter in
`maxMaterialLossAfterMove` discards every capture, so the function returns 0
regardless of what could be recaptured. -/
theorem maxMaterialLossAfterMove_eq_zero
    (chess : BoardPos) (moverWhite : Bool)
    (hwf : PostMoveWF chess moverWhite) :
    maxMaterialLossAfterMove chess moverWhite = 0 := by
  unfold maxMaterialLossAfterMove
  have h := hwf.2
  suffices hgen : ∀ (ms : List VMove),
      (∀ m ∈ ms, m.captured ≠ none →
        chess.getAt m.toSq = none ∨
        ∃ pc, chess.getAt m.toSq = some pc ∧ pc.colorWhite = moverWhite) →
      ∀ (a : Int), ms.foldl
        (fun (maxLoss : Int) m =>
          match m.captured with
          | none => maxLoss
          | some capType =>
            match chess.getAt m.toSq with
            | none => maxLoss
            | some occupant =>
              if occupant.colorWhite = moverWhite then maxLoss
              else max maxLoss (PIECE_VALUES capType)) a = a by
    exact hgen chess.moves h 0
  intro ms
  induction ms with
  | nil => intro _ a; rfl
  | cons m rest ih =>
    intro hall a
    have hm := hall m (List.mem_cons_self m rest)
    have hrest : ∀ m' ∈ rest, m'.captured ≠ none →
        chess.getAt m'.toSq = none ∨
        ∃ pc, chess.getAt m'.toSq = some pc ∧ pc.colorWhite = moverWhite := by
      intro m' hm' hc
      exact hall m' (List.mem_cons_of_mem m hm') hc
    simp only [List.foldl_cons]
    cases hcap : m.captured with
    | none => simpa using ih hrest a
    | some capType =>
      have hne : m.captured ≠ none := by simp [hcap]
      rcases hm hne with hnone | ⟨pc, hpc, hcol⟩
      · simp only [hnone]
        exact ih hrest a
      · simp only [hpc, hcol, if_pos rfl]
        exact ih hrest a

/-- `goReviews` produces one review per remaining ply. -/
theorem goReviews_length (book : List String) (evalResults : List EvalResult)
    (clocks : List String) (plies : List Ply) :
    ∀ (rest : List Ply) (i : Nat) (inBook : Bool),
      (goReviews book evalResults clocks plies i inBook rest).length =
        rest.length := by
  intro rest
  induction rest with
  | nil => intro i inBook; rfl
  | cons p rest ih =>
    intro i inBook
    simp [goReviews, ih]

/-- Unrolling `bookThrough` one step on the right. -/
theorem bookThrough_succ (book : List String) (plies : List Ply)
    (i j : Nat) :
    bookThrough book plies i (j + 1) =
      (isBookPosition (plies.getD i default).fenAfter book &&
        bookThrough book plies (i + 1) j) := rfl

/-- Element `j` of the classification pass is the review of ply `i + j`,
computed with the book state accumulated over the plies in between. -/
theorem goReviews_getElem? (book : List String)
    (evalResults : List EvalResult) (clocks : List String) (plies : List Ply) :
    ∀ (rest : List Ply) (i : Nat) (inBook : Bool) (j : Nat),
      j < rest.length →
      (goReviews book evalResults clocks plies i inBook rest)[j]? =
        some (mkReview book evalResults clocks plies (i + j)
          (inBook && bookThrough book plies i j)) := by
  intro rest
  induction rest with
  | nil => intro i inBook j hj; simp at hj
  | cons p rest ih =>
    intro i inBook j hj
    cases j with
    | zero =>
      simp [goReviews, bookThrough]
    | succ j =>
      have hj' : j < rest.length := by simpa using hj
      simp only [goReviews, List.getElem?_cons_succ]
      rw [ih (i + 1) (inBook && isBookPosition (plies.getD i default).fenAfter book) j hj']
      have hidx : i + 1 + j = i + (j + 1) := by omega
      rw [hidx, bookThrough_succ, ← Bool.and_assoc]

/-- Every review the pass emits is `mkReview` at some index and book state. -/
theorem goReviews_mem (book : List String) (evalResults : List EvalResult)
    (clocks : List String) (plies : List Ply) :
    ∀ (rest : List Ply) (i : Nat) (inBook : Bool) (r : MoveReview),
      r ∈ goReviews book evalResults clocks plies i inBook rest →
      ∃ k b, r = mkReview book evalResults clocks plies k b := by
  intro rest
  induction rest with
  | nil => intro i inBook r hr; simp [goReviews] at hr
  | cons p rest ih =>
    intro i inBook r hr
    simp only [goReviews, List.mem_cons] at hr
    rcases hr with hr | hr
    · exact ⟨i, inBook, hr⟩
    · exact ih _ _ r hr

/-- The reviews of `analyzeGame` are exactly the classification pass started
at index 0 with `inBook = true`. -/
theorem analyzeGame_moves (book : List String)
    (evalResults : List EvalResult) (clocks : List String) (plies : List Ply) :
    (analyzeGame book evalResults clocks plies).moves =
      goReviews book evalResults clocks plies 0 true plies := rfl

/-- There is one review per played ply. -/
theorem analyzeGame_moves_length (book : List String)
    (evalResults : List EvalResult) (clocks : List String) (plies : List Ply) :
    (analyzeGame book evalResults clocks plies).moves.length = plies.length :=
  goReviews_length book evalResults clocks plies plies 0 true

/-- Review `j` of a full analysis. -/
theorem analyzeGame_moves_getElem? (book : List String)
    (evalResults : List EvalResult) (clocks : List String) (plies : List Ply)
    (j : Nat) (hj : j < plies.length) :
    (analyzeGame book evalResults clocks plies).moves[j]? =
      some (mkReview book evalResults clocks plies j
        (bookThrough book plies 0 j)) := by
  rw [analyzeGame_moves,
    goReviews_getElem? book evalResults clocks plies plies 0 true j hj]
  simp

/-- `classifyMove` never returns `Book`. -/
theorem classifyMove_ne_Book (cpLoss : Int) (isSacrifice isPunishment : Bool) :
    classifyMove cpLoss isSacrifice isPunishment ≠ .Book := by
  unfold classifyMove
  split_ifs <;> simp

/-- Unfolding equation for the recorded `cpLoss`. -/
theorem mkReview_cpLoss_eq (book : List String)
    (evalResults : List EvalResult) (clocks : List String) (plies : List Ply)
    (i : Nat) (inBook : Bool) :
    (mkReview book evalResults clocks plies i inBook).cpLoss =
      if inBook && isBookPosition (plies.getD i default).fenAfter book then (0 : Int)
      else rawLoss (evalResults.map (·.evaluation)) plies i := rfl

/-- Unfolding equation for the classification. -/
theorem mkReview_classification_eq (book : List String)
    (evalResults : List EvalResult) (clocks : List String) (plies : List Ply)
    (i : Nat) (inBook : Bool) :
    (mkReview book evalResults clocks plies i inBook).classification =
      if inBook && isBookPosition (plies.getD i default).fenAfter book then
        MoveClassification.Book
      else
        classifyMove (rawLoss (evalResults.map (·.evaluation)) plies i)
          (isSacrificeAt (plies.getD i default))
          (isPunishmentAt (evalResults.map (·.evaluation)) plies i) := rfl

/-- The classification of a produced review is `Book` exactly when the book
state is still true and the resulting position is in the book. -/
theorem mkReview_classification_book_iff (book : List String)
    (evalResults : List EvalResult) (clocks : List String) (plies : List Ply)
    (i : Nat) (inBook : Bool) :
    (mkReview book evalResults clocks plies i inBook).classification = .Book ↔
      (inBook && isBookPosition (plies.getD i default).fenAfter book) = true := by
  rw [mkReview_classification_eq]
  cases hb : inBook && isBookPosition (plies.getD i default).fenAfter book <;>
    simp [hb, classifyMove_ne_Book]

/-- A `Book`-classified review carries `cpLoss = 0`. -/
theorem mkReview_book_cpLoss (book : List String)
    (evalResults : List EvalResult) (clocks : List String) (plies : List Ply)
    (i : Nat) (inBook : Bool)
    (h : (mkReview book evalResults clocks plies i inBook).classification =
      .Book) :
    (mkReview book evalResults clocks plies i inBook).cpLoss = 0 := by
  rw [mkReview_classification_book_iff] at h
  rw [mkReview_cpLoss_eq, h]
  rfl

/-- A non-`Book` review carries the raw centipawn loss and the threshold
classification computed from the raw loss, the sacrifice test and the
punishment test. -/
theorem mkReview_not_book (book : List String)
    (evalResults : List EvalResult) (clocks : List String) (plies : List Ply)
    (i : Nat) (inBook : Bool)
    (h : (mkReview book evalResults clocks plies i inBook).classification ≠
      .Book) :
    (mkReview book evalResults clocks plies i inBook).cpLoss =
        rawLoss (evalResults.map (·.evaluation)) plies i ∧
      (mkReview book evalResults clocks plies i inBook).classification =
        classifyMove (rawLoss (evalResults.map (·.evaluation)) plies i)
          (isSacrificeAt (plies.getD i default))
          (isPunishmentAt (evalResults.map (·.evaluation)) plies i) := by
  have hb : (inBook && isBookPosition (plies.getD i default).fenAfter book) = false := by
    rcases Bool.eq_false_or_eq_true
        (inBook && isBookPosition (plies.getD i default).fenAfter book) with h' | h'
    · exact absurd ((mkReview_classification_book_iff book evalResults clocks
        plies i inBook).mpr h') h
    · exact h'
  constructor
  · rw [mkReview_cpLoss_eq, hb]
    rfl
  · rw [mkReview_classification_eq, hb]
    rfl

/-- The best-move field of a produced review. -/
theorem mkReview_bestMoveUci (book : List String)
    (evalResults : List EvalResult) (clocks : List String) (plies : List Ply)
    (i : Nat) (inBook : Bool) :
    (mkReview book evalResults clocks plies i inBook).bestMoveUci =
      if (mkReview book evalResults clocks plies i inBook).classification ∈
          needsBestMoveClasses then
        (evalResults.getD i default).bestMove
      else none := by
  rw [mkReview_classification_eq]
  rfl

/-- A true accumulated book state means every ply it covers resolved to a
book position. -/
theorem bookThrough_true_all (book : List String) (plies : List Ply) :
    ∀ (j s : Nat), bookThrough book plies s j = true →
      ∀ k, k < j → isBookPosition (plies.getD (s + k) default).fenAfter book = true := by
  intro j
  induction j with
  | zero => intro s _ k hk; omega
  | succ j ih =>
    intro s h k hk
    rw [bookThrough_succ, Bool.and_eq_true] at h
    cases k with
    | zero => simpa using h.1
    | succ k =>
      have := ih (s + 1) h.2 k (by omega)
      simpa [Nat.add_assoc, Nat.add_comm 1 k] using this

/-- Raw centipawn losses are non-negative. -/
theorem rawLoss_nonneg (evaluations : List Int) (plies : List Ply) (i : Nat) :
    0 ≤ rawLoss evaluations plies i := by
  unfold rawLoss
  split <;> exact le_max_left 0 _

/-- Every review's recorded `cpLoss` is non-negative. -/
theorem mkReview_cpLoss_nonneg (book : List String)
    (evalResults : List EvalResult) (clocks : List String) (plies : List Ply)
    (i : Nat) (inBook : Bool) :
    0 ≤ (mkReview book evalResults clocks plies i inBook).cpLoss := by
  rw [mkReview_cpLoss_eq]
  split
  · exact le_refl 0
  · exact rawLoss_nonneg _ _ _

/-! ### Supporting lemmas for the book loader -/

/-- `mapM` over `Except` succeeds with the pointwise results when every call
succeeds. -/
theorem mapM_except_ok_of_forall {α β ε : Type} (f : α → Except ε β)
    (g : α → β) :
    ∀ l : List α, (∀ x ∈ l, f x = .ok (g x)) → l.mapM f = .ok (l.map g) := by
  intro l
  induction l with
  | nil => intro _; rfl
  | cons a l ih =>
    intro h
    rw [List.mapM_cons, h a (List.mem_cons_self a l),
      ih (fun x hx => h x (List.mem_cons_of_mem a hx))]
    rfl

/-- `mapM` over `Except` cannot succeed when any call fails. -/
theorem mapM_except_no_ok_of_error {α β ε : Type} (f : α → Except ε β)
    (e : ε) :
    ∀ (l : List α) (x : α), x ∈ l → f x = .error e →
      ∀ res, l.mapM f ≠ .ok res := by
  intro l
  induction l with
  | nil => intro x hx; simp at hx
  | cons a l ih =>
    intro x hx hfx res hok
    rw [List.mapM_cons] at hok
    rcases List.mem_cons.mp hx with rfl | hx2
    · rw [hfx] at hok
      exact Except.noConfusion hok
    · cases hfa : f a with
      | error e2 =>
        rw [hfa] at hok
        exact Except.noConfusion hok
      | ok b =>
        rw [hfa] at hok
        cases hml : l.mapM f with
        | error e2 =>
          rw [hml] at hok
          exact Except.noConfusion hok
        | ok bs => exact ih x hx2 hfx bs hml


/-! ### Claim theorems -/

/-- C1: at the post-move position after 1.e4 e5 2.Nf3 Nc6 3.Nxe5 (a
well-formed rules-adapter position where Black's capturing reply Nc6xe5
wins back the knight, value 3), the code's `maxMaterialLossAfterMove`
returns 0, not the claimed maximum recapturable piece value: its colour
filter (`captured.color === ourColor`) skips every capture available to the
replying side.  Consequently the code's sacrifice condition evaluates
`1 - 0 - 0 <= -2` (false) although the claim's formula with the true
recapturable loss evaluates `1 - 3 - 0 <= -2` (true). -/
theorem C1_maxRecapturableLoss_always_zero :
    maxMaterialLossAfterMove exPosAfterNxe5 true = 0 ∧
    specMaxRecapturableLoss exPosAfterNxe5 = 3 ∧
    materialBalance exPosBeforeNxe5 true = 0 ∧
    materialBalance exPosAfterNxe5 true = 1 ∧
    isSacrificeAt exPlyNxe5 = false ∧
    (materialBalance exPosAfterNxe5 true - specMaxRecapturableLoss exPosAfterNxe5
      - materialBalance exPosBeforeNxe5 true ≤ -2) ∧
    PostMoveWF exPosAfterNxe5 true := by
  refine ⟨by decide, by decide, by decide, by decide, by decide, by decide,
    rfl, ?_⟩
  intro m hm hc
  fin_cases hm <;> simp_all
  exact Or.inr ⟨⟨.n, true⟩, rfl, rfl⟩

/-- C2 counterexample: partition `a` alone fetches data parsing to two book
positions, yet when partition `b`'s fetch fails the `Promise.all` in
`loadBook` rejects the whole load instead of completing with `a`'s
positions, and the review awaiting the book propagates that same error
rather than proceeding with every move's book status false. -/
theorem C2_counterexample_partition_failure_rejects_load :
    partitionPositions exRules exGoodText = ["", "m"] ∧
    loadBook exRules fetchAllOk = .ok ["", "m"] ∧
    fetchBFails "a" = .ok exGoodText ∧
    loadBook exRules fetchBFails = .error "network" ∧
    reviewGame (loadBook exRules fetchBFails) exEvalResults [] exPlies =
      .error "network" :=
  ⟨by decide, rfl, rfl, rfl, rfl⟩

/-- C2 amended: the book load succeeds only when every partition fetch
succeeds — in which case it collects the positions of all partitions — while
any single failing fetch rejects the whole load, and a failed load
propagates through the review stage instead of being absorbed into a
book-status-false review. -/
theorem C2_amended_loadBook_all_or_nothing {σ ε : Type} (ru : Rules σ)
    (fetchText : String → Except ε String) :
    (∀ texts : String → String,
      (∀ f ∈ bookFiles, fetchText f = .ok (texts f)) →
      loadBook ru fetchText =
        .ok ((bookFiles.map texts).flatMap (partitionPositions ru))) ∧
    (∀ (e : ε) (f : String), f ∈ bookFiles → fetchText f = .error e →
      ∀ ps, loadBook ru fetchText ≠ .ok ps) ∧
    (∀ (e : ε) (evalResults : List EvalResult) (clocks : List String)
      (plies : List Ply) (bookLoad : Except ε (List String)),
      bookLoad = .error e →
      reviewGame bookLoad evalResults clocks plies = .error e) := by
  refine ⟨?_, ?_, ?_⟩
  · intro texts h
    unfold loadBook
    rw [mapM_except_ok_of_forall fetchText texts bookFiles h]
    rfl
  · intro e f hf hkey ps hok
    unfold loadBook at hok
    cases hm : bookFiles.mapM fetchText with
    | error e2 =>
      rw [hm] at hok
      exact Except.noConfusion hok
    | ok texts =>
      exact mapM_except_no_ok_of_error fetchText e bookFiles f hf hkey texts hm
  · intro e evalResults clocks plies bookLoad hbl
    subst hbl
    rfl

/-- Witness for the amended C2: when every partition fetch succeeds the load
returns all partitions' positions. -/
theorem C2_amended_witness :
    (∀ f ∈ bookFiles,
      fetchAllOk f = .ok (if f = "a" then exGoodText else "h")) ∧
    loadBook exRules fetchAllOk =
      .ok ((bookFiles.map (fun f => if f = "a" then exGoodText else "h")).flatMap
        (partitionPositions exRules)) :=
  ⟨by intro f hf; fin_cases hf <;> rfl,
    (C2_amended_loadBook_all_or_nothing exRules fetchAllOk).1
      (fun f => if f = "a" then exGoodText else "h")
      (by intro f hf; fin_cases hf <;> rfl)⟩

/-- C3 counterexample: in the two-ply example game the first ply is
Book-classified and records `cpLoss = 0`, yet the punishment test for the
second ply is true because the code recomputes the previous loss (150) from
the raw evaluation trace, and the second ply classifies Great; under the
claim's reading (previous recorded cpLoss = 0 < 120) the test would be
false and the move would classify Best. -/
theorem C3_counterexample_book_ply_still_triggers_punishment :
    (exAnalysis.moves.getD 0 default).classification = .Book ∧
    (exAnalysis.moves.getD 0 default).cpLoss = 0 ∧
    isPunishmentAt (exEvalResults.map (·.evaluation)) exPlies 1 = true ∧
    ¬(120 ≤ (exAnalysis.moves.getD 0 default).cpLoss) ∧
    (exAnalysis.moves.getD 1 default).classification = .Great ∧
    classifyMove (rawLoss (exEvalResults.map (·.evaluation)) exPlies 1)
      (isSacrificeAt exPly1) false = .Best :=
  ⟨by decide, by decide, by decide, by decide, by decide, by decide⟩

/-- C3 amended: for every ply `i ≥ 1` the punishment test is true exactly
when the previous ply's loss *recomputed from the raw evaluation trace* is
at least 120 and the current ply's raw loss is at most 15; the cpLoss
recorded in the previous `MoveReview` (forced to 0 for Book moves) plays no
role in the test. -/
theorem C3_amended_punishment_recomputed_from_trace
    (evalResults : List EvalResult) (plies : List Ply) (i : Nat)
    (hi : 1 ≤ i) :
    isPunishmentAt (evalResults.map (·.evaluation)) plies i = true ↔
      (120 ≤ rawLoss (evalResults.map (·.evaluation)) plies (i - 1) ∧
        rawLoss (evalResults.map (·.evaluation)) plies i ≤ 15) := by
  have h0 : 0 < i := hi
  simp [isPunishmentAt, h0]

/-- Witness for the amended C3 at the example game's second ply. -/
theorem C3_amended_witness :
    1 ≤ 1 ∧
    (isPunishmentAt (exEvalResults.map (·.evaluation)) exPlies 1 = true ↔
      (120 ≤ rawLoss (exEvalResults.map (·.evaluation)) exPlies 0 ∧
        rawLoss (exEvalResults.map (·.evaluation)) exPlies 1 ≤ 15)) :=
  ⟨le_refl 1,
    C3_amended_punishment_recomputed_from_trace exEvalResults exPlies 1
      (le_refl 1)⟩


/-- C4 counterexample: the one-ply example game classifies its move
Inaccuracy — a class in the best-move set — yet `bestMoveUci` is null
because the evaluator returned no best move for the pre-move position
(`evalResults[i].bestMove ?? null`), refuting the "non-null iff" claim. -/
theorem C4_counterexample_inaccuracy_with_null_bestMove :
    (exAnalysisC4.moves.getD 0 default).classification = .Inaccuracy ∧
    MoveClassification.Inaccuracy ∈ needsBestMoveClasses ∧
    (exAnalysisC4.moves.getD 0 default).bestMoveUci = none :=
  ⟨by decide, by decide, by decide⟩

/-- C4 amended: `bestMoveUci` equals the evaluator's best move for the
pre-move position when the classification is in {Inaccuracy, Mistake, Miss,
Blunder, Excellent, Good} and is null otherwise; hence a non-null
`bestMoveUci` implies a classification in that set and equals the
evaluator's value, but the converse fails when the evaluator returned no
best move. -/
theorem C4_amended_bestMove_from_evaluator (book : List String)
    (evalResults : List EvalResult) (clocks : List String) (plies : List Ply)
    (j : Nat) (hj : j < plies.length) :
    ((analyzeGame book evalResults clocks plies).moves.getD j
        default).bestMoveUci =
      if ((analyzeGame book evalResults clocks plies).moves.getD j
          default).classification ∈ needsBestMoveClasses then
        (evalResults.getD j default).bestMove
      else none := by
  rw [List.getD_eq_getElem?_getD,
    analyzeGame_moves_getElem? book evalResults clocks plies j hj]
  simp only [Option.getD_some]
  exact mkReview_bestMoveUci book evalResults clocks plies j _

/-- Witness for the amended C4 at the one-ply example game. -/
theorem C4_amended_witness :
    0 < ([exPlyC4] : List Ply).length ∧
    ((analyzeGame [] exEvalResultsC4 [] [exPlyC4]).moves.getD 0
        default).bestMoveUci =
      (if ((analyzeGame [] exEvalResultsC4 [] [exPlyC4]).moves.getD 0
          default).classification ∈ needsBestMoveClasses then
        (exEvalResultsC4.getD 0 default).bestMove
      else none) :=
  ⟨by decide, C4_amended_bestMove_from_evaluator [] exEvalResultsC4 [] [exPlyC4]
    0 (by decide)⟩

/-- C5: every review that is not Book-classified records
`cpLoss = max(0, isWhite ? trace[i] - trace[i+1] : trace[i+1] - trace[i])`
(the trace being the evaluator outputs in ply order) and is classified by
the ordered threshold table with the sacrifice and punishment overrides
taking priority in that order. -/
theorem C5_cpLoss_formula_and_threshold_table (book : List String)
    (evalResults : List EvalResult) (clocks : List String) (plies : List Ply)
    (j : Nat) (hj : j < plies.length)
    (hnb : ((analyzeGame book evalResults clocks plies).moves.getD j
      default).classification ≠ .Book) :
    ((analyzeGame book evalResults clocks plies).moves.getD j
        default).cpLoss =
      (if (plies.getD j default).isWhite then
        max 0 ((evalResults.map (·.evaluation)).getD j 0 -
          (evalResults.map (·.evaluation)).getD (j + 1) 0)
      else
        max 0 ((evalResults.map (·.evaluation)).getD (j + 1) 0 -
          (evalResults.map (·.evaluation)).getD j 0)) ∧
    ((analyzeGame book evalResults clocks plies).moves.getD j
        default).classification =
      specClassifyTable (rawLoss (evalResults.map (·.evaluation)) plies j)
        (isSacrificeAt (plies.getD j default))
        (isPunishmentAt (evalResults.map (·.evaluation)) plies j) := by
  rw [List.getD_eq_getElem?_getD,
    analyzeGame_moves_getElem? book evalResults clocks plies j hj] at hnb ⊢
  simp only [Option.getD_some] at hnb ⊢
  obtain ⟨h1, h2⟩ :=
    mkReview_not_book book evalResults clocks plies j _ hnb
  exact ⟨by rw [h1]; rfl, by rw [h2]; rfl⟩

/-- Witness for C5 at the example game's second (non-book) ply. -/
theorem C5_witness :
    1 < exPlies.length ∧
    (exAnalysis.moves.getD 1 default).classification ≠ .Book ∧
    ((exAnalysis.moves.getD 1 default).cpLoss =
      (if (exPlies.getD 1 default).isWhite then
        max 0 ((exEvalResults.map (·.evaluation)).getD 1 0 -
          (exEvalResults.map (·.evaluation)).getD 2 0)
      else
        max 0 ((exEvalResults.map (·.evaluation)).getD 2 0 -
          (exEvalResults.map (·.evaluation)).getD 1 0)) ∧
    (exAnalysis.moves.getD 1 default).classification =
      specClassifyTable (rawLoss (exEvalResults.map (·.evaluation)) exPlies 1)
        (isSacrificeAt (exPlies.getD 1 default))
        (isPunishmentAt (exEvalResults.map (·.evaluation)) exPlies 1)) :=
  ⟨by decide, by decide,
    C5_cpLoss_formula_and_threshold_table exBook exEvalResults [] exPlies 1
      (by decide) (by decide)⟩

/-- C6: the accuracy of a review is `max(0, 100 - (sum cpLoss / moveCount)
/ 10)` for a non-empty game, is exactly 100 for a zero-move game, always
lies in [0, 100], and equals exactly 100 when every move's cpLoss is 0. -/
theorem C6_accuracy_formula_and_bounds (book : List String)
    (evalResults : List EvalResult) (clocks : List String)
    (plies : List Ply) :
    (plies = [] → (analyzeGame book evalResults clocks plies).accuracy = 100) ∧
    0 ≤ (analyzeGame book evalResults clocks plies).accuracy ∧
    (analyzeGame book evalResults clocks plies).accuracy ≤ 100 ∧
    ((analyzeGame book evalResults clocks plies).moves ≠ [] →
      (analyzeGame book evalResults clocks plies).accuracy =
        max 0 (100 -
          (((((analyzeGame book evalResults clocks plies).moves.map
              (·.cpLoss)).sum : Int) : ℚ) /
            ((analyzeGame book evalResults clocks plies).moves.length : ℚ)) /
          10)) ∧
    ((∀ r ∈ (analyzeGame book evalResults clocks plies).moves, r.cpLoss = 0) →
      (analyzeGame book evalResults clocks plies).accuracy = 100) := by
  have hsumnn : (0 : Int) ≤
      ((goReviews book evalResults clocks plies 0 true plies).map
        (·.cpLoss)).sum := by
    apply List.sum_nonneg
    intro x hx
    obtain ⟨r, hrmem, rfl⟩ := List.mem_map.mp hx
    obtain ⟨k, b, rfl⟩ :=
      goReviews_mem book evalResults clocks plies plies 0 true r hrmem
    exact mkReview_cpLoss_nonneg book evalResults clocks plies k b
  have havgnn : 0 ≤
      (if (goReviews book evalResults clocks plies 0 true plies).length = 0
        then (0 : ℚ)
        else ((((goReviews book evalResults clocks plies 0 true plies).map
            (·.cpLoss)).sum : Int) : ℚ) /
          ((goReviews book evalResults clocks plies 0 true plies).length :
            ℚ)) := by
    split
    · exact le_refl 0
    · exact div_nonneg (by exact_mod_cast hsumnn) (Nat.cast_nonneg _)
  refine ⟨?_, ?_, ?_, ?_, ?_⟩
  · intro h
    subst h
    show max (0 : ℚ) (100 - (if (0 : Nat) = 0 then (0 : ℚ) else 0) / 10) = 100
    norm_num
  · exact le_max_left 0 _
  · apply max_le (by norm_num)
    have h10 : 0 ≤
        (if (goReviews book evalResults clocks plies 0 true plies).length = 0
          then (0 : ℚ)
          else ((((goReviews book evalResults clocks plies 0 true plies).map
              (·.cpLoss)).sum : Int) : ℚ) /
            ((goReviews book evalResults clocks plies 0 true plies).length :
              ℚ)) / 10 := div_nonneg havgnn (by norm_num)
    linarith
  · intro hne
    have hlen :
        (goReviews book evalResults clocks plies 0 true plies).length ≠ 0 :=
      fun h0 => hne (List.length_eq_zero.mp h0)
    show max (0 : ℚ) (100 - (if _ = 0 then (0 : ℚ) else _) / 10) = _
    rw [if_neg hlen]
    rfl
  · intro hz
    have hsum0 :
        ((goReviews book evalResults clocks plies 0 true plies).map
          (·.cpLoss)).sum = 0 := by
      apply List.sum_eq_zero
      intro x hx
      obtain ⟨r, hrmem, rfl⟩ := List.mem_map.mp hx
      exact hz r hrmem
    show max (0 : ℚ) (100 - (if _ = 0 then (0 : ℚ) else _) / 10) = 100
    rw [hsum0]
    split <;> norm_num

/-- Witness for C6 at the empty game. -/
theorem C6_witness :
    ([] : List Ply) = [] ∧
    (analyzeGame [] [] [] []).accuracy = 100 :=
  ⟨rfl, (C6_accuracy_formula_and_bounds [] [] [] []).1 rfl⟩


/-- C7: every review classified `Book` reports `cpLoss = 0`, for every book
set, evaluator output, clock list and game. -/
theorem C7_book_classified_reports_zero_cpLoss (book : List String)
    (evalResults : List EvalResult) (clocks : List String)
    (plies : List Ply) :
    ∀ r ∈ (analyzeGame book evalResults clocks plies).moves,
      r.classification = .Book → r.cpLoss = 0 := by
  intro r hr hb
  obtain ⟨k, b, rfl⟩ :=
    goReviews_mem book evalResults clocks plies plies 0 true r hr
  exact mkReview_book_cpLoss book evalResults clocks plies k b hb

/-- Witness for C7 at the example game's Book-classified first ply. -/
theorem C7_witness :
    (exAnalysis.moves.getD 0 default) ∈ exAnalysis.moves ∧
    (exAnalysis.moves.getD 0 default).classification = .Book ∧
    (exAnalysis.moves.getD 0 default).cpLoss = 0 :=
  ⟨by decide, by decide,
    C7_book_classified_reports_zero_cpLoss exBook exEvalResults [] exPlies
      (exAnalysis.moves.getD 0 default) (by decide) (by decide)⟩

/-- C8: once some ply's resulting position is not recognized as a book
position, no later ply of the same game is classified `Book`. -/
theorem C8_book_status_monotone (book : List String)
    (evalResults : List EvalResult) (clocks : List String) (plies : List Ply)
    (i j : Nat) (hij : i < j) (hj : j < plies.length)
    (hoff : isBookPosition (plies.getD i default).fenAfter book = false) :
    ((analyzeGame book evalResults clocks plies).moves.getD j
      default).classification ≠ .Book := by
  intro hB
  rw [List.getD_eq_getElem?_getD,
    analyzeGame_moves_getElem? book evalResults clocks plies j hj] at hB
  simp only [Option.getD_some] at hB
  rw [mkReview_classification_book_iff] at hB
  have hbt : bookThrough book plies 0 j = true :=
    ((Bool.and_eq_true _ _).mp hB).1
  have hall := bookThrough_true_all book plies j 0 hbt i hij
  rw [Nat.zero_add, hoff] at hall
  exact Bool.noConfusion hall

/-- Witness for C8: with an empty book the first ply is off book, so the
second ply is not Book-classified. -/
theorem C8_witness :
    0 < 1 ∧ 1 < exPlies.length ∧
    isBookPosition (exPlies.getD 0 default).fenAfter [] = false ∧
    ((analyzeGame [] exEvalResults [] exPlies).moves.getD 1
      default).classification ≠ .Book :=
  ⟨by decide, by decide, by decide,
    C8_book_status_monotone [] exEvalResults [] exPlies 0 1 (by decide)
      (by decide) (by decide)⟩

/-- C9: in Exploration, extending truncates the node list to `[0..cursor]`
and appends the new node, advancing the cursor to it; in particular from
`[a, b, c]` with the cursor at index 1, extending yields `[a, b, new]` with
cursor 2, discarding `c`. -/
theorem C9_extendExploration_truncate_then_append (s : GameState)
    (san fen : String) (a b c : VariationNode)
    (hm : s.variationMoves = [a, b, c]) (hc : s.variationIndex = 1) :
    (extendVariation s san fen).variationMoves = [a, b, ⟨san, fen, none⟩] ∧
    (extendVariation s san fen).variationIndex = 2 ∧
    ∀ (t : GameState), 0 ≤ t.variationIndex →
      (extendVariation t san fen).variationMoves =
        t.variationMoves.take (t.variationIndex + 1).toNat ++
          [⟨san, fen, none⟩] ∧
      (extendVariation t san fen).variationIndex = t.variationIndex + 1 := by
  refine ⟨?_, ?_, ?_⟩
  · show s.variationMoves.take (s.variationIndex + 1).toNat ++
      [⟨san, fen, none⟩] = [a, b, ⟨san, fen, none⟩]
    rw [hm, hc]
    rfl
  · show s.variationIndex + 1 = 2
    rw [hc]
    decide
  · intro t _
    exact ⟨rfl, rfl⟩

/-- Witness for C9 at a concrete three-node exploration state. -/
theorem C9_witness :
    exGameState.variationMoves =
      [⟨"Nf3", "fenA", none⟩, ⟨"Nc6", "fenB", none⟩, ⟨"Bb5", "fenC", none⟩] ∧
    exGameState.variationIndex = 1 ∧
    (extendVariation exGameState "d4" "fenD").variationMoves =
      [⟨"Nf3", "fenA", none⟩, ⟨"Nc6", "fenB", none⟩, ⟨"d4", "fenD", none⟩] ∧
    (extendVariation exGameState "d4" "fenD").variationIndex = 2 :=
  ⟨rfl, rfl,
    (C9_extendExploration_truncate_then_append exGameState "d4" "fenD"
      ⟨"Nf3", "fenA", none⟩ ⟨"Nc6", "fenB", none⟩ ⟨"Bb5", "fenC", none⟩
      rfl rfl).1,
    (C9_extendExploration_truncate_then_append exGameState "d4" "fenD"
      ⟨"Nf3", "fenA", none⟩ ⟨"Nc6", "fenB", none⟩ ⟨"Bb5", "fenC", none⟩
      rfl rfl).2.1⟩

/-- C10: `updateVariationEval` with an out-of-range index (in the integers)
leaves the whole state unchanged, and with a valid index changes exactly the
indexed node's `eval` field: its `san` and `fen`, all other nodes, the list
length, the cursor, the base index, the exploration flag, the main-line
pointer and the display toggles are unchanged. -/
theorem C10_updateVariationEval_frame (s : GameState) (idx : Int) (v : Int) :
    (¬(0 ≤ idx ∧ idx < s.variationMoves.length) →
      updateVariationEval s idx v = s) ∧
    ((0 ≤ idx ∧ idx < s.variationMoves.length) →
      ((updateVariationEval s idx v).variationMoves.getD idx.toNat
          default).san = (s.variationMoves.getD idx.toNat default).san ∧
      ((updateVariationEval s idx v).variationMoves.getD idx.toNat
          default).fen = (s.variationMoves.getD idx.toNat default).fen ∧
      ((updateVariationEval s idx v).variationMoves.getD idx.toNat
          default).eval = some v ∧
      (∀ k : Nat, k ≠ idx.toNat →
        (updateVariationEval s idx v).variationMoves.getD k default =
          s.variationMoves.getD k default) ∧
      (updateVariationEval s idx v).variationMoves.length =
        s.variationMoves.length ∧
      (updateVariationEval s idx v).currentMoveIndex = s.currentMoveIndex ∧
      (updateVariationEval s idx v).variationIndex = s.variationIndex ∧
      (updateVariationEval s idx v).variationBaseIndex =
        s.variationBaseIndex ∧
      (updateVariationEval s idx v).isVariation = s.isVariation ∧
      (updateVariationEval s idx v).orientationWhite = s.orientationWhite ∧
      (updateVariationEval s idx v).showTimestamps = s.showTimestamps) := by
  constructor
  · intro h
    simp only [updateVariationEval]
    rw [if_neg h]
  · intro h
    have hlt : idx.toNat < s.variationMoves.length := by omega
    have hset : (updateVariationEval s idx v).variationMoves =
        s.variationMoves.set idx.toNat
          { s.variationMoves.getD idx.toNat default with eval := some v } := by
      simp only [updateVariationEval]
      rw [if_pos h]
    have hget : (updateVariationEval s idx v).variationMoves.getD idx.toNat
        default =
        { s.variationMoves.getD idx.toNat default with eval := some v } := by
      rw [hset, List.getD_eq_getElem?_getD, List.getElem?_set_self hlt,
        Option.getD_some]
    refine ⟨by rw [hget], by rw [hget], by rw [hget], ?_, ?_, rfl, rfl, rfl,
      rfl, rfl, rfl⟩
    · intro k hk
      rw [hset, List.getD_eq_getElem?_getD,
        List.getElem?_set_ne (Ne.symm hk), ← List.getD_eq_getElem?_getD]
    · rw [hset, List.length_set]

/-- Witness for C10: an out-of-range update (index 5 on a three-node line)
is the identity, and a valid update (index 1) sets only that node's eval. -/
theorem C10_witness :
    ¬(0 ≤ (5 : Int) ∧ (5 : Int) < exGameState.variationMoves.length) ∧
    updateVariationEval exGameState 5 7 = exGameState ∧
    (0 ≤ (1 : Int) ∧ (1 : Int) < exGameState.variationMoves.length) ∧
    ((updateVariationEval exGameState 1 7).variationMoves.getD
      (1 : Int).toNat default).eval = some 7 :=
  ⟨by decide,
    (C10_updateVariationEval_frame exGameState 5 7).1 (by decide),
    by decide,
    ((C10_updateVariationEval_frame exGameState 1 7).2 (by decide)).2.2.1⟩

end ChessReview
